import Mathlib

/-!
# MIDI port switch (`source/native-plugins/midi-port-switch.c`)

A shallow embedding of the Carla native plugin "MIDI Channel Switch" and the
properties of its parameter and process callbacks.

Conventions of the embedding:

* unsigned machine integers (`uint32_t`, `uint8_t`) are natural numbers, reduced
  modulo `2 ^ w` where the C code converts or can wrap;
* a C `float` is a `CFloat`: not-a-number, an infinity, or a finite rational;
* an access outside an array is undefined behaviour in C: the embedded function
  returns `none` there, and `some r` when the C function runs to its end;
* the host callback `write_midi_event` appends the event it is given to the
  sequence of emitted events, which `midiportswitch_process` returns.
-/

set_option autoImplicit false

namespace MidiPortSwitch

/-! ## Values of the C types -/

/-- A value of the C type `float`: not-a-number, one of the infinities, or a finite
number (the two zeros are not told apart; no code here depends on the sign of zero). -/
inductive CFloat where
  | nan : CFloat
  | negInf : CFloat
  | posInf : CFloat
  | finite (q : ℚ) : CFloat
  deriving DecidableEq

namespace CFloat

/-- The constant `0.0f`. -/
def zero : CFloat := finite 0

/-- The constant `0.5f`, the fraction one over two in lowest terms. -/
def half : CFloat := finite ⟨1, 2, by decide, by decide⟩

/-- The constant `1.0f`. -/
def one : CFloat := finite 1

/-- The C comparison `a >= b` on floats: false as soon as one side is not-a-number. -/
def ge : CFloat → CFloat → Bool
  | nan, _ => false
  | _, nan => false
  | posInf, _ => true
  | _, negInf => true
  | negInf, _ => false
  | _, posInf => false
  | finite a, finite b => decide (b ≤ a)

/-- Conversion of a float to `bool`: every value that compares unequal to zero is
`true` (not-a-number included). -/
def toBool : CFloat → Bool
  | finite q => decide (q ≠ 0)
  | _ => true

end CFloat

/-- Modelled from the spec: the constant `MAX_MIDI_CHANNELS` of `CarlaMIDI.h`, a header
that is not among the sources; the spec has sixteen output ports, indexed 0 to 15. -/
def MAX_MIDI_CHANNELS : Nat := 16

/-- Modelled from the spec: the macro `MIDI_GET_STATUS_FROM_DATA` of `CarlaMIDI.h`, a
header that is not among the sources; the spec says it extracts the status nibble (the
high four bits) from the first data byte. -/
def MIDI_GET_STATUS_FROM_DATA (data0 : Nat) : Nat := data0 &&& 0xF0

/-- Modelled from the spec: the macro `MIDI_IS_CHANNEL_MESSAGE` of `CarlaMIDI.h`, a
header that is not among the sources; a status is a channel-voice message when it is
one of 0x80, ..., 0xE0, and a system message from 0xF0 on. -/
def MIDI_IS_CHANNEL_MESSAGE (status : Nat) : Bool :=
  decide (0x80 ≤ status) && decide (status < 0xF0)

/-- Modelled from the spec: the struct `NativeMidiEvent` of `CarlaNative.h`, a header
that is not among the sources; the spec gives it an unsigned frame offset `time`, an
unsigned destination `port`, a byte count `size` and four raw bytes `data[0..3]`. The
`port` field is taken one byte wide; any width that holds 0..15 gives the same results. -/
structure NativeMidiEvent where
  time : Nat
  port : Nat
  size : Nat
  data0 : Nat
  data1 : Nat
  data2 : Nat
  data3 : Nat
  deriving DecidableEq, Repr

/-- The struct `MidiPortSwitchHandle`: the host pointer (an address) and the flag array
`bool ouputPorts[MAX_MIDI_CHANNELS]`. -/
structure MidiPortSwitchHandle where
  host : Nat
  ouputPorts : List Bool
  deriving DecidableEq, Repr

/-- Modelled from the spec: the bits of the enum `NativeParameterHints` of
`CarlaNative.h`, a header that is not among the sources; the spec names the four flags
of a parameter (enabled, automatable, boolean-valued, scale-point-based) and not their
values, which are left open here. -/
structure NativeParameterHints where
  NATIVE_PARAMETER_IS_ENABLED : Nat
  NATIVE_PARAMETER_IS_AUTOMABLE : Nat
  NATIVE_PARAMETER_IS_BOOLEAN : Nat
  NATIVE_PARAMETER_USES_SCALEPOINTS : Nat

/-- Modelled from the spec: the struct `NativeParameterScalePoint` of `CarlaNative.h`, a
header that is not among the sources; an enumerated scale point is a label and a value. -/
structure NativeParameterScalePoint where
  label : String
  value : CFloat
  deriving DecidableEq

/-- Modelled from the spec: the struct `NativeParameterRanges` of `CarlaNative.h`, a
header that is not among the sources; the fields are the ones the source assigns. -/
structure NativeParameterRanges where
  «def» : CFloat
  min : CFloat
  max : CFloat
  step : CFloat
  stepSmall : CFloat
  stepLarge : CFloat
  deriving DecidableEq

/-- Modelled from the spec: the struct `NativeParameter` of `CarlaNative.h`, a header
that is not among the sources; the fields are the ones the source assigns (`unit` is a
string or `NULL`). -/
structure NativeParameter where
  hints : Nat
  name : String
  unit : Option String
  ranges : NativeParameterRanges
  scalePointCount : Nat
  scalePoints : List NativeParameterScalePoint
  deriving DecidableEq

/-! ## The callbacks -/

/-- The loop `for (int i=MAX_MIDI_CHANNELS; --i>=0;) handle->ouputPorts[i] = 1.0f;` of
`midiportswitch_instantiate`; the first argument is the value of `i` before `--i`. -/
def instantiateLoop : Nat → List Bool → List Bool
  | 0, ouputPorts => ouputPorts
  | i + 1, ouputPorts => instantiateLoop i (ouputPorts.set i CFloat.one.toBool)

/-- The function `midiportswitch_instantiate`. `malloc` either fails (`none`) or hands
out a block for one handle whose sixteen flag bytes hold whatever `uninit` says. -/
def midiportswitch_instantiate (host : Nat) (malloc : Option (Nat → Bool)) :
    Option MidiPortSwitchHandle :=
  match malloc with
  | none => none
  | some uninit =>
    some { host := host
           ouputPorts :=
             instantiateLoop MAX_MIDI_CHANNELS ((List.range MAX_MIDI_CHANNELS).map uninit) }

/-- The function `midiportswitch_get_parameter_count`. -/
def midiportswitch_get_parameter_count (_handle : MidiPortSwitchHandle) : Nat :=
  MAX_MIDI_CHANNELS

/-- The function `midiportswitch_get_parameter_info`; `none` is the `NULL` result. The
descriptor is the content of the static `param` when the function returns; `snprintf`
writes at most 23 characters of the decimal digits of the `uint32_t` value `index+1`. -/
def midiportswitch_get_parameter_info (bits : NativeParameterHints)
    (_handle : MidiPortSwitchHandle) (index : Nat) : Option NativeParameter :=
  if index > MAX_MIDI_CHANNELS then none
  else
    some {
      hints := bits.NATIVE_PARAMETER_IS_ENABLED ||| bits.NATIVE_PARAMETER_IS_AUTOMABLE |||
        bits.NATIVE_PARAMETER_IS_BOOLEAN ||| bits.NATIVE_PARAMETER_USES_SCALEPOINTS
      name := (Nat.repr ((index + 1) % 2 ^ 32)).take 23
      unit := none
      ranges := {
        «def» := CFloat.one
        min := CFloat.zero
        max := CFloat.one
        step := CFloat.one
        stepSmall := CFloat.one
        stepLarge := CFloat.one }
      scalePointCount := 2
      scalePoints := [{ label := "Off", value := CFloat.zero }, { label := "On", value := CFloat.one }] }

/-- The function `midiportswitch_get_parameter_value`; `none` is a read outside the
flag array. -/
def midiportswitch_get_parameter_value (handle : MidiPortSwitchHandle) (index : Nat) :
    Option CFloat :=
  if index > MAX_MIDI_CHANNELS then some CFloat.zero
  else
    match handle.ouputPorts[index]? with
    | none => none
    | some flag => some (if flag then CFloat.one else CFloat.zero)

/-- The function `midiportswitch_set_parameter_value`; `none` is a write outside the
flag array. -/
def midiportswitch_set_parameter_value (handle : MidiPortSwitchHandle) (index : Nat)
    (value : CFloat) : Option MidiPortSwitchHandle :=
  if index > MAX_MIDI_CHANNELS then some handle
  else if index < handle.ouputPorts.length then
    some { handle with ouputPorts := handle.ouputPorts.set index (value.ge CFloat.half) }
  else none

/-- The inner loop `for (uint32_t port=0; port < MAX_MIDI_CHANNELS; ++port)` of
`midiportswitch_process`. The first argument counts the iterations still to run,
`MAX_MIDI_CHANNELS - port`; the state is `tmpEvent` and the events written so far. -/
def portLoop (ouputPorts : List Bool) :
    Nat → Nat → NativeMidiEvent → List NativeMidiEvent →
      Option (NativeMidiEvent × List NativeMidiEvent)
  | 0, _, tmpEvent, written => some (tmpEvent, written)
  | todo + 1, port, tmpEvent, written =>
    match ouputPorts[port]? with
    | none => none
    | some false => portLoop ouputPorts todo (port + 1) tmpEvent written
    | some true =>
      let tmpEvent1 := { tmpEvent with port := port % 256 }
      portLoop ouputPorts todo (port + 1) tmpEvent1 (written ++ [tmpEvent1])

/-- The outer loop `for (uint32_t i=0; i < midiEventCount; ++i)` of
`midiportswitch_process`. The first argument counts the iterations still to run,
`midiEventCount - i`; `none` is a read outside `midiEvents` or outside the flags. -/
def eventLoop (ouputPorts : List Bool) (midiEvents : List NativeMidiEvent) :
    Nat → Nat → NativeMidiEvent → List NativeMidiEvent →
      Option (NativeMidiEvent × List NativeMidiEvent)
  | 0, _, tmpEvent, written => some (tmpEvent, written)
  | todo + 1, i, tmpEvent, written =>
    match midiEvents[i]? with
    | none => none
    | some midiEvent =>
      let status := MIDI_GET_STATUS_FROM_DATA midiEvent.data0 % 256
      if !MIDI_IS_CHANNEL_MESSAGE status then
        eventLoop ouputPorts midiEvents todo (i + 1) tmpEvent (written ++ [midiEvent])
      else
        let tmpEvent1 :=
          { tmpEvent with
            time := midiEvent.time
            data0 := midiEvent.data0
            data1 := midiEvent.data1
            data2 := midiEvent.data2
            data3 := midiEvent.data3
            size := midiEvent.size }
        match portLoop ouputPorts MAX_MIDI_CHANNELS 0 tmpEvent1 written with
        | none => none
        | some (tmpEvent2, written2) =>
          eventLoop ouputPorts midiEvents todo (i + 1) tmpEvent2 written2

/-- The function `midiportswitch_process`: the events handed to the host's
`write_midi_event`, in the order of the calls. `tmpEvent` is the content of the
uninitialised local of that name; the audio buffers and `frames` are unused. -/
def midiportswitch_process (handle : MidiPortSwitchHandle)
    (midiEvents : List NativeMidiEvent) (midiEventCount : Nat)
    (tmpEvent : NativeMidiEvent) : Option (List NativeMidiEvent) :=
  (eventLoop handle.ouputPorts midiEvents midiEventCount 0 tmpEvent []).map Prod.snd

/-! ## Vocabulary of the statements -/

/-- The test of `midiportswitch_process` on an input event: the status taken from the
first data byte, cast to `uint8_t`, is a channel message. -/
def isChannelEvent (e : NativeMidiEvent) : Bool :=
  MIDI_IS_CHANNEL_MESSAGE (MIDI_GET_STATUS_FROM_DATA e.data0 % 256)

/-- The port indices whose flag is set, in ascending order. -/
def enabledPorts (ouputPorts : List Bool) : List Nat :=
  (List.range MAX_MIDI_CHANNELS).filter (fun p => ouputPorts[p]? = some true)

/-- The copies of `e` over the enabled ports: `e` with `port` replaced, port by port. -/
def fanOut (ouputPorts : List Bool) (e : NativeMidiEvent) : List NativeMidiEvent :=
  (enabledPorts ouputPorts).map (fun p => { e with port := p })

/-- What one input event adds to the emitted sequence: its copies over the enabled
ports when it is a channel message, itself otherwise. -/
def routeEvent (ouputPorts : List Bool) (e : NativeMidiEvent) : List NativeMidiEvent :=
  if isChannelEvent e then fanOut ouputPorts e else [e]

/-- A run of `midiportswitch_set_parameter_value` calls made one after the other, each
call given as the pair of its index and its value; `none` as soon as one call writes
outside the flag array. -/
def setParameterValues :
    MidiPortSwitchHandle → List (Nat × CFloat) → Option MidiPortSwitchHandle
  | handle, [] => some handle
  | handle, (index, value) :: calls =>
    match midiportswitch_set_parameter_value handle index value with
    | none => none
    | some handle2 => setParameterValues handle2 calls

/-- The value of the last call of `calls` made on `port`, when there is one. -/
def lastValueSet (calls : List (Nat × CFloat)) (port : Nat) : Option CFloat :=
  ((calls.filter (fun call => call.1 = port)).getLast?).map (fun call => call.2)

/-- The port was never set by `calls`, or the last value set on it was `>= 0.5`. -/
def openAfter (calls : List (Nat × CFloat)) (port : Nat) : Bool :=
  match lastValueSet calls port with
  | none => true
  | some value => value.ge CFloat.half

/-- The event with its `port` field erased (put to zero): what is left is its `time`,
its `size` and its four data bytes. -/
def erasePort (e : NativeMidiEvent) : NativeMidiEvent := { e with port := 0 }

/-- The calls a host makes on an instance through the function table
`midiportswitchDesc`, each with its arguments (for `process`, also the content of the
uninitialised local `tmpEvent`). -/
inductive HostCall where
  | get_parameter_count : HostCall
  | get_parameter_info (index : Nat) : HostCall
  | get_parameter_value (index : Nat) : HostCall
  | set_parameter_value (index : Nat) (value : CFloat) : HostCall
  | process (midiEvents : List NativeMidiEvent) (midiEventCount : Nat)
      (tmpEvent : NativeMidiEvent) : HostCall
  deriving DecidableEq

/-- What a call hands to the host: the return value of a getter, nothing for
`set_parameter_value`, the events written for `process`. -/
inductive HostResult where
  | count (n : Nat) : HostResult
  | info (param : Option NativeParameter) : HostResult
  | value (v : CFloat) : HostResult
  | done : HostResult
  | written (events : List NativeMidiEvent) : HostResult
  deriving DecidableEq

/-- One call through `midiportswitchDesc`: the instance after the call and what the call
hands to the host; `none` when the call accesses outside an array. In the source only
`midiportswitch_set_parameter_value` stores through `handlePtr`; the other callbacks
read the instance (`midiportswitch_process` through `const` pointers), so the instance
after them is the one before. -/
def hostCall (bits : NativeParameterHints) (handle : MidiPortSwitchHandle) :
    HostCall → Option (MidiPortSwitchHandle × HostResult)
  | .get_parameter_count =>
    some (handle, .count (midiportswitch_get_parameter_count handle))
  | .get_parameter_info index =>
    some (handle, .info (midiportswitch_get_parameter_info bits handle index))
  | .get_parameter_value index =>
    (midiportswitch_get_parameter_value handle index).map (fun v => (handle, .value v))
  | .set_parameter_value index value =>
    (midiportswitch_set_parameter_value handle index value).map (fun h => (h, .done))
  | .process midiEvents midiEventCount tmpEvent =>
    (midiportswitch_process handle midiEvents midiEventCount tmpEvent).map
      (fun events => (handle, .written events))

/-- The call is a `set_parameter_value`. -/
def HostCall.isSet : HostCall → Bool
  | .set_parameter_value _ _ => true
  | _ => false

/-- A run of calls made one after the other: the instance after the last one; `none` as
soon as one call accesses outside an array. -/
def hostCalls (bits : NativeParameterHints) :
    MidiPortSwitchHandle → List HostCall → Option MidiPortSwitchHandle
  | handle, [] => some handle
  | handle, call :: calls =>
    match hostCall bits handle call with
    | none => none
    | some (handle2, _) => hostCalls bits handle2 calls

/-- The states an instance can be in: the one a successful `midiportswitch_instantiate`
returns, and the one after any call that runs to its end on a reachable state. -/
inductive Reachable (bits : NativeParameterHints) : MidiPortSwitchHandle → Prop where
  | fresh (host : Nat) (malloc : Option (Nat → Bool)) (handle : MidiPortSwitchHandle) :
      midiportswitch_instantiate host malloc = some handle → Reachable bits handle
  | call (handle : MidiPortSwitchHandle) (c : HostCall) (handle2 : MidiPortSwitchHandle)
      (r : HostResult) :
      Reachable bits handle → hostCall bits handle c = some (handle2, r) →
      Reachable bits handle2

/-! ## The process loops -/

set_option maxRecDepth 100000 in
theorem channel_status_iff : ∀ d < 256,
    (MIDI_IS_CHANNEL_MESSAGE (MIDI_GET_STATUS_FROM_DATA d % 256) = true ↔ 0x80 ≤ d ∧ d ≤ 0xEF) := by
  decide

theorem isChannelEvent_iff (e : NativeMidiEvent) (h : e.data0 < 256) :
    isChannelEvent e = true ↔ 0x80 ≤ e.data0 ∧ e.data0 ≤ 0xEF :=
  channel_status_iff e.data0 h

theorem portLoop_eq (ouputPorts : List Bool) :
    ∀ (todo port : Nat) (tmpEvent : NativeMidiEvent) (written : List NativeMidiEvent),
      port + todo ≤ ouputPorts.length → port + todo ≤ 256 →
      ∃ tmpEvent2, portLoop ouputPorts todo port tmpEvent written =
        some (tmpEvent2, written ++
          ((List.range' port todo).filter (fun p => ouputPorts[p]? = some true)).map
            (fun p => { tmpEvent with port := p })) := by
  intro todo
  induction todo with
  | zero => intro port tmpEvent written _ _; exact ⟨tmpEvent, by simp [portLoop]⟩
  | succ n ih =>
    intro port tmpEvent written hlen hbyte
    have hlt : port < ouputPorts.length := by omega
    have hmod : port % 256 = port := Nat.mod_eq_of_lt (by omega)
    rw [portLoop, List.getElem?_eq_getElem hlt, hmod]
    cases hflag : ouputPorts[port] with
    | false =>
      obtain ⟨t, ht⟩ := ih (port + 1) tmpEvent written (by omega) (by omega)
      refine ⟨t, ?_⟩
      simp [ht, List.range', List.filter_cons, List.getElem?_eq_getElem hlt, hflag]
    | true =>
      obtain ⟨t, ht⟩ := ih (port + 1) { tmpEvent with port := port }
        (written ++ [{ tmpEvent with port := port }]) (by omega) (by omega)
      refine ⟨t, ?_⟩
      simp only [ht]
      simp [List.range', List.filter_cons, List.getElem?_eq_getElem hlt, hflag]

/-- One full run of the inner loop appends the fan-out of the copied event. -/
theorem portLoop_full (ouputPorts : List Bool) (hlen : ouputPorts.length = MAX_MIDI_CHANNELS)
    (midiEvent tmpEvent : NativeMidiEvent) (written : List NativeMidiEvent) :
    ∃ tmpEvent2,
      portLoop ouputPorts MAX_MIDI_CHANNELS 0
        { tmpEvent with
          time := midiEvent.time
          data0 := midiEvent.data0
          data1 := midiEvent.data1
          data2 := midiEvent.data2
          data3 := midiEvent.data3
          size := midiEvent.size } written =
        some (tmpEvent2, written ++ fanOut ouputPorts midiEvent) := by
  obtain ⟨t, ht⟩ := portLoop_eq ouputPorts MAX_MIDI_CHANNELS 0
    { tmpEvent with
      time := midiEvent.time
      data0 := midiEvent.data0
      data1 := midiEvent.data1
      data2 := midiEvent.data2
      data3 := midiEvent.data3
      size := midiEvent.size } written (by omega) (by simp [MAX_MIDI_CHANNELS])
  exact ⟨t, by rw [ht]; simp [fanOut, enabledPorts, List.range_eq_range']⟩

/-- The outer loop, run over events that are all inside `midiEvents`, appends the
routed events one input event after the other. -/
theorem eventLoop_eq (ouputPorts : List Bool) (hlen : ouputPorts.length = MAX_MIDI_CHANNELS)
    (midiEvents : List NativeMidiEvent) :
    ∀ (todo i : Nat) (tmpEvent : NativeMidiEvent) (written : List NativeMidiEvent),
      i + todo ≤ midiEvents.length →
      ∃ tmpEvent2, eventLoop ouputPorts midiEvents todo i tmpEvent written =
        some (tmpEvent2,
          written ++ ((midiEvents.drop i).take todo).flatMap (routeEvent ouputPorts)) := by
  intro todo
  induction todo with
  | zero => intro i tmpEvent written _; exact ⟨tmpEvent, by simp [eventLoop]⟩
  | succ n ih =>
    intro i tmpEvent written hi
    have hlt : i < midiEvents.length := by omega
    rw [eventLoop, List.getElem?_eq_getElem hlt, List.drop_eq_getElem_cons hlt]
    simp only [List.take_succ_cons, List.flatMap_cons]
    by_cases hch : isChannelEvent midiEvents[i] = true
    · have hch2 : MIDI_IS_CHANNEL_MESSAGE (MIDI_GET_STATUS_FROM_DATA midiEvents[i].data0 % 256)
          = true := hch
      obtain ⟨t1, ht1⟩ := portLoop_full ouputPorts hlen midiEvents[i] tmpEvent written
      obtain ⟨t2, ht2⟩ := ih (i + 1) t1 (written ++ fanOut ouputPorts midiEvents[i]) (by omega)
      refine ⟨t2, ?_⟩
      simp only [hch2, Bool.not_true, Bool.false_eq_true, if_false, ht1, ht2, routeEvent, hch,
        if_true, List.append_assoc]
    · have hch2 : MIDI_IS_CHANNEL_MESSAGE (MIDI_GET_STATUS_FROM_DATA midiEvents[i].data0 % 256)
          = false := by simpa [isChannelEvent] using hch
      obtain ⟨t2, ht2⟩ := ih (i + 1) tmpEvent (written ++ [midiEvents[i]]) (by omega)
      refine ⟨t2, ?_⟩
      simp only [hch2, Bool.not_false, if_true, ht2, routeEvent, hch, if_false, Bool.false_eq_true,
        List.append_assoc]

/-- The emitted sequence of a call that passes the whole of `midiEvents`. -/
theorem process_eq_flatMap (handle : MidiPortSwitchHandle)
    (hlen : handle.ouputPorts.length = MAX_MIDI_CHANNELS)
    (midiEvents : List NativeMidiEvent) (tmpEvent : NativeMidiEvent) :
    midiportswitch_process handle midiEvents midiEvents.length tmpEvent =
      some (midiEvents.flatMap (routeEvent handle.ouputPorts)) := by
  obtain ⟨t, ht⟩ := eventLoop_eq handle.ouputPorts hlen midiEvents midiEvents.length 0 tmpEvent []
    (by omega)
  simp [midiportswitch_process, ht]

/-! ## Reading and writing one flag -/

theorem CFloat.ge_half_finite (q : ℚ) : (CFloat.finite q).ge CFloat.half = true ↔ 1 / 2 ≤ q := by
  have h : (⟨1, 2, by decide, by decide⟩ : ℚ) = 1 / 2 := by
    rw [Rat.mk'_eq_divInt, Rat.divInt_eq_div]; norm_num
  simp [CFloat.ge, CFloat.half, h]

theorem get_parameter_value_of_lt (handle : MidiPortSwitchHandle) (index : Nat)
    (h : index < handle.ouputPorts.length) (hmax : index ≤ MAX_MIDI_CHANNELS) :
    midiportswitch_get_parameter_value handle index =
      some (if handle.ouputPorts[index] then CFloat.one else CFloat.zero) := by
  simp [midiportswitch_get_parameter_value, Nat.not_lt.mpr hmax, List.getElem?_eq_getElem h]

theorem get_parameter_value_of_gt (handle : MidiPortSwitchHandle) (index : Nat)
    (h : MAX_MIDI_CHANNELS < index) :
    midiportswitch_get_parameter_value handle index = some CFloat.zero := by
  simp [midiportswitch_get_parameter_value, h]

theorem set_parameter_value_of_lt (handle : MidiPortSwitchHandle) (index : Nat) (value : CFloat)
    (h : index < handle.ouputPorts.length) (hmax : index ≤ MAX_MIDI_CHANNELS) :
    midiportswitch_set_parameter_value handle index value =
      some { handle with ouputPorts := handle.ouputPorts.set index (value.ge CFloat.half) } := by
  simp [midiportswitch_set_parameter_value, Nat.not_lt.mpr hmax, h]

theorem set_parameter_value_of_gt (handle : MidiPortSwitchHandle) (index : Nat) (value : CFloat)
    (h : MAX_MIDI_CHANNELS < index) :
    midiportswitch_set_parameter_value handle index value = some handle := by
  simp [midiportswitch_set_parameter_value, h]

theorem instantiateLoop_full (uninit : Nat → Bool) :
    instantiateLoop MAX_MIDI_CHANNELS ((List.range MAX_MIDI_CHANNELS).map uninit) =
      List.replicate 16 true := by
  have hone : CFloat.one.toBool = true := by decide
  simp only [MAX_MIDI_CHANNELS, instantiateLoop, hone]
  simp [List.range, List.range.loop]

theorem length_enabledPorts (ouputPorts : List Bool)
    (hlen : ouputPorts.length = MAX_MIDI_CHANNELS) :
    (enabledPorts ouputPorts).length = ouputPorts.count true := by
  have key : ∀ l : List Bool,
      ((List.range l.length).filter (fun p => l[p]? = some true)).length = l.count true := by
    intro l
    induction l with
    | nil => simp
    | cons b l ih =>
      rw [List.length_cons, List.range_succ_eq_map, List.filter_cons, List.filter_map]
      cases b <;> simp [Function.comp_def, ih]
  rw [enabledPorts, ← hlen]
  exact key ouputPorts

/-! ## Runs of set calls -/

theorem lastValueSet_cons (index : Nat) (value : CFloat) (calls : List (Nat × CFloat))
    (port : Nat) :
    lastValueSet ((index, value) :: calls) port =
      if index = port then some ((lastValueSet calls port).getD value)
      else lastValueSet calls port := by
  unfold lastValueSet
  by_cases h : index = port
  · simp only [List.filter_cons, h, decide_True, if_true, List.getLast?_cons]
    cases (List.filter (fun call => decide (call.1 = port)) calls).getLast? <;> simp
  · simp [List.filter_cons, h]

/-- The flags after a run of in-range set calls: a flag that was set holds the test of
the last value set on it, the others are as before. -/
theorem setParameterValues_flags :
    ∀ (calls : List (Nat × CFloat)) (handle : MidiPortSwitchHandle),
      handle.ouputPorts.length = 16 → (∀ call ∈ calls, call.1 < 16) →
      ∃ handle2, setParameterValues handle calls = some handle2 ∧
        handle2.ouputPorts.length = 16 ∧
        ∀ port, handle2.ouputPorts[port]? =
          match lastValueSet calls port with
          | none => handle.ouputPorts[port]?
          | some value => some (value.ge CFloat.half) := by
  intro calls
  induction calls with
  | nil => intro handle hlen _; exact ⟨handle, rfl, hlen, fun port => by simp [lastValueSet]⟩
  | cons call calls ih =>
    obtain ⟨index, value⟩ := call
    intro handle hlen hin
    have hidx : index < 16 := hin (index, value) (List.mem_cons_self _ _)
    have hset := set_parameter_value_of_lt handle index value (by omega)
      (by simp only [MAX_MIDI_CHANNELS]; omega)
    obtain ⟨handle2, hrun, hlen2, hflags⟩ :=
      ih { handle with ouputPorts := handle.ouputPorts.set index (value.ge CFloat.half) }
        (by simpa using hlen) (fun c hc => hin c (List.mem_cons_of_mem _ hc))
    refine ⟨handle2, by simp only [setParameterValues, hset, hrun], hlen2, ?_⟩
    intro port
    rw [hflags port, lastValueSet_cons]
    by_cases h : index = port
    · subst h
      cases hlast : lastValueSet calls index with
      | none => simp [List.getElem?_set_self (show index < handle.ouputPorts.length by omega)]
      | some w => simp
    · cases hlast : lastValueSet calls port with
      | none => simp [h, List.getElem?_set_ne h]
      | some w => simp [h]

/-! ## The claims -/

/-- C1: on the one-event input `[e]`, with `e` a channel-voice event (first data byte in
0x80..0xEF) and any 16 enable flags, `midiportswitch_process` returns, and it emits as
many events as there are `true` flags, one per enabled port index in strictly ascending
port order, each with the time, data bytes and size of `e`, whatever the port of `e`. -/
theorem process_channel_voice_event (handle : MidiPortSwitchHandle)
    (e tmpEvent : NativeMidiEvent) (hflags : handle.ouputPorts.length = 16)
    (hlo : 0x80 ≤ e.data0) (hhi : e.data0 ≤ 0xEF) :
    ∃ out, midiportswitch_process handle [e] 1 tmpEvent = some out ∧
      out.length = handle.ouputPorts.count true ∧
      out.map (fun o => o.port) =
        (List.range 16).filter (fun p => handle.ouputPorts[p]? = some true) ∧
      (out.map (fun o => o.port)).Pairwise (fun p q => p < q) ∧
      ∀ o ∈ out, o.time = e.time ∧ o.data0 = e.data0 ∧ o.data1 = e.data1 ∧
        o.data2 = e.data2 ∧ o.data3 = e.data3 ∧ o.size = e.size := by
  have hch : isChannelEvent e = true := (isChannelEvent_iff e (by omega)).mpr ⟨hlo, hhi⟩
  refine ⟨fanOut handle.ouputPorts e, ?_, ?_, ?_, ?_, ?_⟩
  · have h := process_eq_flatMap handle hflags [e] tmpEvent
    simpa [routeEvent, hch] using h
  · rw [fanOut, List.length_map]
    exact length_enabledPorts handle.ouputPorts hflags
  · simp [fanOut, enabledPorts, MAX_MIDI_CHANNELS, Function.comp_def]
  · have hmap : (fanOut handle.ouputPorts e).map (fun o => o.port) =
        enabledPorts handle.ouputPorts := by
      simp [fanOut, Function.comp_def]
    rw [hmap]
    exact (List.pairwise_lt_range MAX_MIDI_CHANNELS).filter _
  · intro o ho
    simp only [fanOut, List.mem_map] at ho
    obtain ⟨p, _, rfl⟩ := ho
    simp

/-- C1, at a Note-On with port 9 and the flags of ports 1 and 3 set: two events come out,
on ports 1 and 3. -/
theorem process_channel_voice_event_witness :
    ∃ out, midiportswitch_process
        ⟨0, [false, true, false, true, false, false, false, false,
             false, false, false, false, false, false, false, false]⟩
        [⟨5, 9, 3, 0x90, 60, 100, 0⟩] 1 ⟨0, 0, 0, 0, 0, 0, 0⟩ = some out ∧
      out.length = 2 ∧ out.map (fun o => o.port) = [1, 3] ∧
      (out.map (fun o => o.port)).Pairwise (fun p q => p < q) ∧
      ∀ o ∈ out, o.time = 5 ∧ o.data0 = 0x90 ∧ o.data1 = 60 ∧
        o.data2 = 100 ∧ o.data3 = 0 ∧ o.size = 3 :=
  process_channel_voice_event
    ⟨0, [false, true, false, true, false, false, false, false,
         false, false, false, false, false, false, false, false]⟩
    ⟨5, 9, 3, 0x90, 60, 100, 0⟩ ⟨0, 0, 0, 0, 0, 0, 0⟩ (by decide) (by decide) (by decide)

/-- C2: on the one-event input `[e]`, with `e` not a channel-voice event (first data byte
below 0x80 or from 0xF0 on), `midiportswitch_process` emits exactly `e`, all fields
unchanged, for every handle: the flags play no part. -/
theorem process_other_event (handle : MidiPortSwitchHandle) (e tmpEvent : NativeMidiEvent)
    (hbyte : e.data0 < 256) (hother : e.data0 < 0x80 ∨ 0xF0 ≤ e.data0) :
    midiportswitch_process handle [e] 1 tmpEvent = some [e] := by
  have hch : MIDI_IS_CHANNEL_MESSAGE (MIDI_GET_STATUS_FROM_DATA e.data0 % 256) = false := by
    have h := channel_status_iff e.data0 hbyte
    cases hc : MIDI_IS_CHANNEL_MESSAGE (MIDI_GET_STATUS_FROM_DATA e.data0 % 256) with
    | false => rfl
    | true => have := h.mp hc; omega
  simp [midiportswitch_process, eventLoop, hch]

/-- C2, at a System Exclusive event (status 0xF0) sent to a handle with all flags off. -/
theorem process_other_event_witness :
    midiportswitch_process ⟨0, List.replicate 16 false⟩ [⟨7, 4, 1, 0xF0, 0, 0, 0⟩] 1
      ⟨0, 0, 0, 0, 0, 0, 0⟩ = some [⟨7, 4, 1, 0xF0, 0, 0, 0⟩] :=
  process_other_event ⟨0, List.replicate 16 false⟩ ⟨7, 4, 1, 0xF0, 0, 0, 0⟩
    ⟨0, 0, 0, 0, 0, 0, 0⟩ (by decide) (by decide)

/-- C3: for an index `i` in 0..15, any value `v` and any state with 16 flags,
`midiportswitch_set_parameter_value(i, v)` returns and a following
`midiportswitch_get_parameter_value(i)` returns 1.0 if `v >= 0.5` and 0.0 otherwise;
setting 1.0 reads back 1.0 and setting 0.0 reads back 0.0. -/
theorem get_after_set_parameter_value (handle : MidiPortSwitchHandle) (i : Nat)
    (hflags : handle.ouputPorts.length = 16) (hi : i < 16) :
    (∀ v : CFloat, ∃ handle2,
      midiportswitch_set_parameter_value handle i v = some handle2 ∧
      midiportswitch_get_parameter_value handle2 i =
        some (if v.ge CFloat.half then CFloat.one else CFloat.zero)) ∧
    (∃ handle2, midiportswitch_set_parameter_value handle i CFloat.one = some handle2 ∧
      midiportswitch_get_parameter_value handle2 i = some CFloat.one) ∧
    (∃ handle2, midiportswitch_set_parameter_value handle i CFloat.zero = some handle2 ∧
      midiportswitch_get_parameter_value handle2 i = some CFloat.zero) := by
  have main : ∀ v : CFloat, ∃ handle2,
      midiportswitch_set_parameter_value handle i v = some handle2 ∧
      midiportswitch_get_parameter_value handle2 i =
        some (if v.ge CFloat.half then CFloat.one else CFloat.zero) := by
    intro v
    have hlt : i < handle.ouputPorts.length := by omega
    have hmax : i ≤ MAX_MIDI_CHANNELS := by simp only [MAX_MIDI_CHANNELS]; omega
    refine ⟨_, set_parameter_value_of_lt handle i v hlt hmax, ?_⟩
    rw [get_parameter_value_of_lt _ i (by simpa using hlt) hmax]
    simp
  refine ⟨main, ?_, ?_⟩
  · obtain ⟨h2, hs, hg⟩ := main CFloat.one
    exact ⟨h2, hs, by rw [hg]; decide⟩
  · obtain ⟨h2, hs, hg⟩ := main CFloat.zero
    exact ⟨h2, hs, by rw [hg]; decide⟩

/-- C3, at index 3 of a handle with all flags off, for the value 0.75. -/
theorem get_after_set_parameter_value_witness :
    ∃ handle2,
      midiportswitch_set_parameter_value ⟨0, List.replicate 16 false⟩ 3
        (CFloat.finite (3 / 4)) = some handle2 ∧
      midiportswitch_get_parameter_value handle2 3 = some CFloat.one := by
  obtain ⟨h2, hs, hg⟩ :=
    (get_after_set_parameter_value ⟨0, List.replicate 16 false⟩ 3 (by decide) (by decide)).1
      (CFloat.finite (3 / 4))
  refine ⟨h2, hs, ?_⟩
  rw [hg, if_pos ((CFloat.ge_half_finite (3 / 4)).mpr (by norm_num))]

/-- C4: when `midiportswitch_instantiate` succeeds, which it does exactly when the
allocation does, all 16 enable flags of the new state are true and
`midiportswitch_get_parameter_value(i)` returns 1.0 for every `i` in 0..15, whatever the
allocated block held. -/
theorem instantiate_all_enabled (host : Nat) (malloc : Option (Nat → Bool)) :
    ((midiportswitch_instantiate host malloc).isSome = malloc.isSome) ∧
    ∀ handle, midiportswitch_instantiate host malloc = some handle →
      handle.ouputPorts = List.replicate 16 true ∧
      ∀ i < 16, midiportswitch_get_parameter_value handle i = some CFloat.one := by
  cases malloc with
  | none => simp [midiportswitch_instantiate]
  | some uninit =>
    refine ⟨by simp [midiportswitch_instantiate], ?_⟩
    intro handle h
    simp only [midiportswitch_instantiate, Option.some.injEq] at h
    rw [instantiateLoop_full] at h
    subst h
    refine ⟨rfl, ?_⟩
    intro i hi
    rw [get_parameter_value_of_lt _ i (by simp only [List.length_replicate]; exact hi)
      (by simp only [MAX_MIDI_CHANNELS]; omega)]
    simp only [List.getElem_replicate, if_true]

/-- C4, at a block whose flag bytes were all zero before the initialisation. -/
theorem instantiate_all_enabled_witness :
    midiportswitch_instantiate 1 (some fun _ => false) = some ⟨1, List.replicate 16 true⟩ ∧
    midiportswitch_get_parameter_value ⟨1, List.replicate 16 true⟩ 15 = some CFloat.one :=
  ⟨by decide,
    ((instantiate_all_enabled 1 (some fun _ => false)).2 ⟨1, List.replicate 16 true⟩
      (by decide)).2 15 (by decide)⟩

/-- C5: from a freshly created instance, after any finite run of
`midiportswitch_set_parameter_value` calls with indices in 0..15, processing one
channel-voice event emits its copies on exactly the ports that were never set or whose
last set value was `>= 0.5`, in ascending port order. -/
theorem process_after_sets (host : Nat) (uninit : Nat → Bool)
    (calls : List (Nat × CFloat)) (e tmpEvent : NativeMidiEvent)
    (hcalls : ∀ call ∈ calls, call.1 < 16) (hlo : 0x80 ≤ e.data0) (hhi : e.data0 ≤ 0xEF) :
    ∃ fresh handle, midiportswitch_instantiate host (some uninit) = some fresh ∧
      setParameterValues fresh calls = some handle ∧
      midiportswitch_process handle [e] 1 tmpEvent =
        some (((List.range 16).filter (openAfter calls)).map (fun p => { e with port := p })) := by
  have hfresh : midiportswitch_instantiate host (some uninit) =
      some ⟨host, List.replicate 16 true⟩ := by
    simp only [midiportswitch_instantiate, instantiateLoop_full]
  obtain ⟨handle, hrun, hlen, hflags⟩ :=
    setParameterValues_flags calls ⟨host, List.replicate 16 true⟩ (by simp) hcalls
  refine ⟨_, handle, hfresh, hrun, ?_⟩
  have hch : isChannelEvent e = true := (isChannelEvent_iff e (by omega)).mpr ⟨hlo, hhi⟩
  have hproc := process_eq_flatMap handle hlen [e] tmpEvent
  have hports : enabledPorts handle.ouputPorts = (List.range 16).filter (openAfter calls) := by
    apply List.filter_congr
    intro p hp
    have hp16 : p < 16 := by simpa [MAX_MIDI_CHANNELS] using hp
    rw [hflags p, openAfter]
    cases lastValueSet calls p with
    | none =>
      show decide ((List.replicate 16 true)[p]? = some true) = true
      rw [List.getElem?_replicate_of_lt hp16]
      rfl
    | some w => simp
  simpa [routeEvent, hch, fanOut, hports] using hproc

/-- C5, at the two scenarios of the claim: with no set call a Note-On (0x90, 60, 100)
comes out on the ports 0..15, and after ports 0, 2 and 4 were set to 0.0 it comes out
on the 13 ports 1, 3, 5, 6, ..., 15. -/
theorem process_after_sets_witness :
    (∃ fresh handle, midiportswitch_instantiate 0 (some fun _ => false) = some fresh ∧
      setParameterValues fresh [] = some handle ∧
      midiportswitch_process handle [⟨0, 0, 3, 0x90, 60, 100, 0⟩] 1 ⟨0, 0, 0, 0, 0, 0, 0⟩ =
        some ([0, 1, 2, 3, 4, 5, 6, 7, 8, 9, 10, 11, 12, 13, 14, 15].map
          (fun p => ⟨0, p, 3, 0x90, 60, 100, 0⟩))) ∧
    (∃ fresh handle, midiportswitch_instantiate 0 (some fun _ => false) = some fresh ∧
      setParameterValues fresh [(0, CFloat.zero), (2, CFloat.zero), (4, CFloat.zero)] =
        some handle ∧
      midiportswitch_process handle [⟨0, 0, 3, 0x90, 60, 100, 0⟩] 1 ⟨0, 0, 0, 0, 0, 0, 0⟩ =
        some ([1, 3, 5, 6, 7, 8, 9, 10, 11, 12, 13, 14, 15].map
          (fun p => ⟨0, p, 3, 0x90, 60, 100, 0⟩))) := by
  have h0 : (List.range 16).filter (openAfter []) =
      [0, 1, 2, 3, 4, 5, 6, 7, 8, 9, 10, 11, 12, 13, 14, 15] := by decide
  have h1 : (List.range 16).filter
      (openAfter [(0, CFloat.zero), (2, CFloat.zero), (4, CFloat.zero)]) =
      [1, 3, 5, 6, 7, 8, 9, 10, 11, 12, 13, 14, 15] := by decide
  constructor
  · have h := process_after_sets 0 (fun _ => false) [] ⟨0, 0, 3, 0x90, 60, 100, 0⟩
      ⟨0, 0, 0, 0, 0, 0, 0⟩ (by decide) (by decide) (by decide)
    rw [h0] at h
    exact h
  · have h := process_after_sets 0 (fun _ => false)
      [(0, CFloat.zero), (2, CFloat.zero), (4, CFloat.zero)] ⟨0, 0, 3, 0x90, 60, 100, 0⟩
      ⟨0, 0, 0, 0, 0, 0, 0⟩ (by decide) (by decide) (by decide)
    rw [h1] at h
    exact h

/-- C6: when all 16 enable flags are false, `midiportswitch_process` returns and emits
nothing for an input made only of channel-voice events; a single channel-voice event is
dropped. -/
theorem process_all_disabled (handle : MidiPortSwitchHandle) (tmpEvent : NativeMidiEvent)
    (hflags : handle.ouputPorts = List.replicate 16 false) :
    (∀ midiEvents : List NativeMidiEvent,
      (∀ e ∈ midiEvents, 0x80 ≤ e.data0 ∧ e.data0 ≤ 0xEF) →
      midiportswitch_process handle midiEvents midiEvents.length tmpEvent = some []) ∧
    (∀ e : NativeMidiEvent, 0x80 ≤ e.data0 → e.data0 ≤ 0xEF →
      midiportswitch_process handle [e] 1 tmpEvent = some []) := by
  have hnone : enabledPorts handle.ouputPorts = [] := by rw [hflags]; decide
  have main : ∀ midiEvents : List NativeMidiEvent,
      (∀ e ∈ midiEvents, 0x80 ≤ e.data0 ∧ e.data0 ≤ 0xEF) →
      midiportswitch_process handle midiEvents midiEvents.length tmpEvent = some [] := by
    intro midiEvents hch
    rw [process_eq_flatMap handle (by rw [hflags]; rfl) midiEvents tmpEvent]
    have hall : ∀ e ∈ midiEvents, routeEvent handle.ouputPorts e = [] := by
      intro e he
      have hc : isChannelEvent e = true :=
        (isChannelEvent_iff e (by have := hch e he; omega)).mpr (hch e he)
      simp [routeEvent, hc, fanOut, hnone]
    simpa using hall
  refine ⟨main, ?_⟩
  intro e hlo hhi
  exact main [e] (by simpa using ⟨hlo, hhi⟩)

/-- C6, at a Note-On followed by a Note-Off on a handle with all flags off. -/
theorem process_all_disabled_witness :
    midiportswitch_process ⟨0, List.replicate 16 false⟩
      [⟨0, 0, 3, 0x90, 60, 100, 0⟩, ⟨9, 0, 3, 0x80, 60, 0, 0⟩] 2 ⟨0, 0, 0, 0, 0, 0, 0⟩ =
      some [] :=
  (process_all_disabled ⟨0, List.replicate 16 false⟩ ⟨0, 0, 0, 0, 0, 0, 0⟩ rfl).1
    [⟨0, 0, 3, 0x90, 60, 100, 0⟩, ⟨9, 0, 3, 0x80, 60, 0, 0⟩] (by decide)

/-- C7: `midiportswitch_get_parameter_info(index)` returns `NULL` exactly when
`index > 16`; for every index in 0..16, index 16 included, it returns a descriptor,
although `midiportswitch_get_parameter_count` returns 16. -/
theorem get_parameter_info_null_iff (bits : NativeParameterHints)
    (handle : MidiPortSwitchHandle) :
    (∀ index, midiportswitch_get_parameter_info bits handle index = none ↔ 16 < index) ∧
    (∀ index, index ≤ 16 →
      (midiportswitch_get_parameter_info bits handle index).isSome = true) ∧
    (midiportswitch_get_parameter_info bits handle 16).isSome = true ∧
    midiportswitch_get_parameter_count handle = 16 := by
  refine ⟨?_, ?_, ?_, rfl⟩
  · intro index
    by_cases h : 16 < index <;> simp [midiportswitch_get_parameter_info, MAX_MIDI_CHANNELS, h]
  · intro index h
    simp [midiportswitch_get_parameter_info, MAX_MIDI_CHANNELS, Nat.not_lt.mpr h]
  · simp [midiportswitch_get_parameter_info, MAX_MIDI_CHANNELS]

/-- C7, at the indices 15, 16 and 17 of a fresh handle. -/
theorem get_parameter_info_null_iff_witness :
    (midiportswitch_get_parameter_info ⟨2, 4, 8, 128⟩ ⟨0, List.replicate 16 true⟩ 15).isSome
      = true ∧
    (midiportswitch_get_parameter_info ⟨2, 4, 8, 128⟩ ⟨0, List.replicate 16 true⟩ 16).isSome
      = true ∧
    midiportswitch_get_parameter_info ⟨2, 4, 8, 128⟩ ⟨0, List.replicate 16 true⟩ 17 = none :=
  ⟨(get_parameter_info_null_iff ⟨2, 4, 8, 128⟩ ⟨0, List.replicate 16 true⟩).2.1 15 (by decide),
    (get_parameter_info_null_iff ⟨2, 4, 8, 128⟩ ⟨0, List.replicate 16 true⟩).2.2.1,
    ((get_parameter_info_null_iff ⟨2, 4, 8, 128⟩ ⟨0, List.replicate 16 true⟩).1 17).mpr
      (by decide)⟩

set_option maxRecDepth 10000 in
/-- C8: a descriptor returned by `midiportswitch_get_parameter_info(index)` is named by
the decimal digits of `index+1` ("1" for index 0, "16" for index 15), has the range
minimum 0.0, maximum 1.0, default 1.0 and step 1.0, the two scale points ("Off", 0.0)
and ("On", 1.0) in that order, and the hints enabled | automable | boolean |
uses-scalepoints; but for the name, the descriptors of all accepted indices are equal. -/
theorem get_parameter_info_descriptor (bits : NativeParameterHints)
    (handle : MidiPortSwitchHandle) (index : Nat) (param : NativeParameter)
    (h : midiportswitch_get_parameter_info bits handle index = some param) :
    param.name = toString (index + 1) ∧
    (index = 0 → param.name = "1") ∧ (index = 15 → param.name = "16") ∧
    param.ranges.min = CFloat.zero ∧ param.ranges.max = CFloat.one ∧
    param.ranges.«def» = CFloat.one ∧ param.ranges.step = CFloat.one ∧
    param.scalePointCount = 2 ∧
    param.scalePoints = [⟨"Off", CFloat.zero⟩, ⟨"On", CFloat.one⟩] ∧
    param.hints =
      bits.NATIVE_PARAMETER_IS_ENABLED ||| bits.NATIVE_PARAMETER_IS_AUTOMABLE |||
        bits.NATIVE_PARAMETER_IS_BOOLEAN ||| bits.NATIVE_PARAMETER_USES_SCALEPOINTS ∧
    ∀ (handle2 : MidiPortSwitchHandle) (index2 : Nat) (param2 : NativeParameter),
      midiportswitch_get_parameter_info bits handle2 index2 = some param2 →
      { param2 with name := param.name } = param := by
  have hname : ∀ i ≤ 16, (Nat.repr ((i + 1) % 2 ^ 32)).take 23 = toString (i + 1) := by
    intro i hi
    interval_cases i <;> decide
  by_cases hidx : index > MAX_MIDI_CHANNELS
  · simp [midiportswitch_get_parameter_info, hidx] at h
  · simp only [midiportswitch_get_parameter_info, hidx, if_false, Option.some.injEq] at h
    have hle : index ≤ 16 := by simpa [MAX_MIDI_CHANNELS] using hidx
    rw [hname index hle] at h
    subst h
    refine ⟨rfl, ?_, ?_, rfl, rfl, rfl, rfl, rfl, rfl, rfl, ?_⟩
    · intro h0; subst h0; exact (by decide : toString (0 + 1) = "1")
    · intro h15; subst h15; exact (by decide : toString (15 + 1) = "16")
    · intro handle2 index2 param2 h2
      by_cases hidx2 : index2 > MAX_MIDI_CHANNELS
      · simp [midiportswitch_get_parameter_info, hidx2] at h2
      · simp only [midiportswitch_get_parameter_info, hidx2, if_false, Option.some.injEq] at h2
        subst h2
        rfl

/-- C8, at index 15 with the hint bits 2, 4, 8 and 128. -/
theorem get_parameter_info_descriptor_witness :
    midiportswitch_get_parameter_info ⟨2, 4, 8, 128⟩ ⟨0, List.replicate 16 true⟩ 15 =
      some ⟨142, "16", none,
        ⟨CFloat.one, CFloat.zero, CFloat.one, CFloat.one, CFloat.one, CFloat.one⟩, 2,
        [⟨"Off", CFloat.zero⟩, ⟨"On", CFloat.one⟩]⟩ ∧
    (⟨142, "16", none,
        ⟨CFloat.one, CFloat.zero, CFloat.one, CFloat.one, CFloat.one, CFloat.one⟩, 2,
        [⟨"Off", CFloat.zero⟩, ⟨"On", CFloat.one⟩]⟩ : NativeParameter).name = toString (15 + 1) :=
  ⟨by decide,
    (get_parameter_info_descriptor ⟨2, 4, 8, 128⟩ ⟨0, List.replicate 16 true⟩ 15
      ⟨142, "16", none,
        ⟨CFloat.one, CFloat.zero, CFloat.one, CFloat.one, CFloat.one, CFloat.one⟩, 2,
        [⟨"Off", CFloat.zero⟩, ⟨"On", CFloat.one⟩]⟩ (by decide)).1⟩

/-- C9: on a freshly created instance, whose parameter count is 16, the index 16 passes
the range check of `midiportswitch_get_parameter_value` and the function reads
`ouputPorts[16]`, outside the flag array, where the claim has the result 0.0; every
larger index does give 0.0. -/
theorem get_parameter_value_index_16 :
    midiportswitch_instantiate 0 (some fun _ => false) = some ⟨0, List.replicate 16 true⟩ ∧
    midiportswitch_get_parameter_count ⟨0, List.replicate 16 true⟩ = 16 ∧
    midiportswitch_get_parameter_value ⟨0, List.replicate 16 true⟩ 16 = none ∧
    midiportswitch_get_parameter_value ⟨0, List.replicate 16 true⟩ 17 = some CFloat.zero := by
  decide

/-- C10: on a freshly created instance, whose parameter count is 16, the index 16 passes
the range check of `midiportswitch_set_parameter_value` and the function writes
`ouputPorts[16]`, outside the flag array, where the claim has a no-op; every larger
index does leave the state as it was. -/
theorem set_parameter_value_index_16 :
    midiportswitch_instantiate 0 (some fun _ => false) = some ⟨0, List.replicate 16 true⟩ ∧
    midiportswitch_get_parameter_count ⟨0, List.replicate 16 true⟩ = 16 ∧
    midiportswitch_set_parameter_value ⟨0, List.replicate 16 true⟩ 16 CFloat.zero = none ∧
    midiportswitch_set_parameter_value ⟨0, List.replicate 16 true⟩ 17 CFloat.zero =
      some ⟨0, List.replicate 16 true⟩ := by
  decide

/-! ## More on the process loops -/

/-- The emitted sequence of a call that passes the first `midiEventCount` events. -/
theorem process_eq_flatMap_take (handle : MidiPortSwitchHandle)
    (hlen : handle.ouputPorts.length = MAX_MIDI_CHANNELS)
    (midiEvents : List NativeMidiEvent) (midiEventCount : Nat) (tmpEvent : NativeMidiEvent)
    (hcount : midiEventCount ≤ midiEvents.length) :
    midiportswitch_process handle midiEvents midiEventCount tmpEvent =
      some ((midiEvents.take midiEventCount).flatMap (routeEvent handle.ouputPorts)) := by
  obtain ⟨t, ht⟩ := eventLoop_eq handle.ouputPorts hlen midiEvents midiEventCount 0 tmpEvent []
    (by omega)
  simp [midiportswitch_process, ht]

/-- The inner loop writes the same events from two contents of `tmpEvent` that differ in
the `port` field only. -/
theorem portLoop_written_congr (ouputPorts : List Bool) :
    ∀ (todo port : Nat) (tmpEvent tmpEvent2 : NativeMidiEvent)
      (written : List NativeMidiEvent), erasePort tmpEvent = erasePort tmpEvent2 →
      (portLoop ouputPorts todo port tmpEvent written).map Prod.snd =
        (portLoop ouputPorts todo port tmpEvent2 written).map Prod.snd := by
  intro todo
  induction todo with
  | zero => intro port t t2 written _; rfl
  | succ n ih =>
    intro port t t2 written h
    simp only [portLoop]
    cases hp : ouputPorts[port]? with
    | none => rfl
    | some flag =>
      cases flag with
      | false => exact ih (port + 1) t t2 written h
      | true =>
        have heq : ({ t with port := port % 256 } : NativeMidiEvent) =
            { t2 with port := port % 256 } := by
          simp only [erasePort, NativeMidiEvent.mk.injEq] at h
          simp only [NativeMidiEvent.mk.injEq]
          tauto
        simp only [heq]

/-- The outer loop writes the same events whatever the uninitialised `tmpEvent` holds. -/
theorem eventLoop_written_congr (ouputPorts : List Bool)
    (midiEvents : List NativeMidiEvent) :
    ∀ (todo i : Nat) (tmpEvent tmpEvent2 : NativeMidiEvent)
      (written : List NativeMidiEvent),
      (eventLoop ouputPorts midiEvents todo i tmpEvent written).map Prod.snd =
        (eventLoop ouputPorts midiEvents todo i tmpEvent2 written).map Prod.snd := by
  intro todo
  induction todo with
  | zero => intro i t t2 written; rfl
  | succ n ih =>
    intro i t t2 written
    simp only [eventLoop]
    cases hev : midiEvents[i]? with
    | none => rfl
    | some e =>
      simp only []
      cases hch : MIDI_IS_CHANNEL_MESSAGE (MIDI_GET_STATUS_FROM_DATA e.data0 % 256) with
      | false => simpa using ih (i + 1) t t2 (written ++ [e])
      | true =>
        simp only [Bool.not_true, Bool.false_eq_true, if_false]
        have hp := portLoop_written_congr ouputPorts MAX_MIDI_CHANNELS 0
          { t with
            time := e.time, data0 := e.data0, data1 := e.data1, data2 := e.data2,
            data3 := e.data3, size := e.size }
          { t2 with
            time := e.time, data0 := e.data0, data1 := e.data1, data2 := e.data2,
            data3 := e.data3, size := e.size } written rfl
        revert hp
        cases portLoop ouputPorts MAX_MIDI_CHANNELS 0
          { t with
            time := e.time, data0 := e.data0, data1 := e.data1, data2 := e.data2,
            data3 := e.data3, size := e.size } written with
        | none =>
          cases portLoop ouputPorts MAX_MIDI_CHANNELS 0
            { t2 with
              time := e.time, data0 := e.data0, data1 := e.data1, data2 := e.data2,
              data3 := e.data3, size := e.size } written with
          | none => intro _; rfl
          | some r2 => intro hp; simp at hp
        | some r =>
          cases portLoop ouputPorts MAX_MIDI_CHANNELS 0
            { t2 with
              time := e.time, data0 := e.data0, data1 := e.data1, data2 := e.data2,
              data3 := e.data3, size := e.size } written with
          | none => intro hp; simp at hp
          | some r2 =>
            intro hp
            obtain ⟨a, w⟩ := r
            obtain ⟨a2, w2⟩ := r2
            simp only [Option.map_some', Option.some.injEq] at hp
            subst hp
            exact ih (i + 1) a a2 w

/-- The events `midiportswitch_process` writes do not depend on what the uninitialised
local `tmpEvent` holds. -/
theorem process_tmpEvent_irrelevant (handle : MidiPortSwitchHandle)
    (midiEvents : List NativeMidiEvent) (midiEventCount : Nat)
    (tmpEvent tmpEvent2 : NativeMidiEvent) :
    midiportswitch_process handle midiEvents midiEventCount tmpEvent =
      midiportswitch_process handle midiEvents midiEventCount tmpEvent2 :=
  eventLoop_written_congr handle.ouputPorts midiEvents midiEventCount 0 tmpEvent tmpEvent2 []

/-! ## The claims on the process loop -/

/-- C11: `midiportswitch_process` handles the input events one by one, in arrival order
and each on its own: with 16 flags, the sequence emitted for `xs ++ ys` is the one
emitted for `xs` followed by the one emitted for `ys`, the sequence emitted for a whole
input is the concatenation of the ones emitted for its events, only the first
`midiEventCount` events are processed, and a count of zero (so an empty input) emits
nothing. -/
theorem process_append (handle : MidiPortSwitchHandle)
    (hflags : handle.ouputPorts.length = 16) (tmpEvent : NativeMidiEvent) :
    (∀ xs ys : List NativeMidiEvent, ∃ outX outY,
      midiportswitch_process handle xs xs.length tmpEvent = some outX ∧
      midiportswitch_process handle ys ys.length tmpEvent = some outY ∧
      midiportswitch_process handle (xs ++ ys) (xs ++ ys).length tmpEvent =
        some (outX ++ outY)) ∧
    (∀ midiEvents : List NativeMidiEvent,
      midiportswitch_process handle midiEvents midiEvents.length tmpEvent =
        some (midiEvents.flatMap
          (fun e => (midiportswitch_process handle [e] 1 tmpEvent).getD []))) ∧
    (∀ (midiEvents : List NativeMidiEvent) (midiEventCount : Nat),
      midiEventCount ≤ midiEvents.length →
      midiportswitch_process handle midiEvents midiEventCount tmpEvent =
        midiportswitch_process handle (midiEvents.take midiEventCount) midiEventCount
          tmpEvent) ∧
    (∀ midiEvents : List NativeMidiEvent,
      midiportswitch_process handle midiEvents 0 tmpEvent = some []) := by
  refine ⟨?_, ?_, ?_, ?_⟩
  · intro xs ys
    refine ⟨_, _, process_eq_flatMap handle hflags xs tmpEvent,
      process_eq_flatMap handle hflags ys tmpEvent, ?_⟩
    rw [process_eq_flatMap handle hflags (xs ++ ys) tmpEvent, List.flatMap_append]
  · intro midiEvents
    rw [process_eq_flatMap handle hflags midiEvents tmpEvent]
    congr 2
    funext e
    have h := process_eq_flatMap handle hflags [e] tmpEvent
    simp only [List.length_singleton, List.flatMap_singleton] at h
    rw [h, Option.getD_some]
  · intro midiEvents n hn
    rw [process_eq_flatMap_take handle hflags midiEvents n tmpEvent hn,
      process_eq_flatMap_take handle hflags (midiEvents.take n) n tmpEvent
        (by rw [List.length_take]; omega),
      List.take_take, Nat.min_self]
  · intro midiEvents
    rfl

/-- C11, at a System Exclusive event followed by a Note-On, with the flags of ports 1 and
3 set: the two outputs come one after the other, and a count of 1 stops after the
first event. -/
theorem process_append_witness :
    midiportswitch_process
        ⟨0, [false, true, false, true, false, false, false, false,
             false, false, false, false, false, false, false, false]⟩
        [⟨2, 7, 1, 0xF0, 0, 0, 0⟩, ⟨5, 9, 3, 0x90, 60, 100, 0⟩] 1 ⟨0, 0, 0, 0, 0, 0, 0⟩ =
      some [⟨2, 7, 1, 0xF0, 0, 0, 0⟩] ∧
    ∃ outX outY,
      outX = [⟨2, 7, 1, 0xF0, 0, 0, 0⟩] ∧
      outY = [⟨5, 1, 3, 0x90, 60, 100, 0⟩, ⟨5, 3, 3, 0x90, 60, 100, 0⟩] ∧
      midiportswitch_process
        ⟨0, [false, true, false, true, false, false, false, false,
             false, false, false, false, false, false, false, false]⟩
        [⟨2, 7, 1, 0xF0, 0, 0, 0⟩, ⟨5, 9, 3, 0x90, 60, 100, 0⟩] 2 ⟨0, 0, 0, 0, 0, 0, 0⟩ =
      some (outX ++ outY) := by
  have h := process_append
    ⟨0, [false, true, false, true, false, false, false, false,
         false, false, false, false, false, false, false, false]⟩ (by decide)
    ⟨0, 0, 0, 0, 0, 0, 0⟩
  refine ⟨?_, ?_⟩
  · rw [h.2.2.1 _ 1 (by decide)]
    decide
  · obtain ⟨outX, outY, hx, hy, hxy⟩ :=
      h.1 [⟨2, 7, 1, 0xF0, 0, 0, 0⟩] [⟨5, 9, 3, 0x90, 60, 100, 0⟩]
    refine ⟨outX, outY, ?_, ?_, hxy⟩
    · have hx2 : midiportswitch_process
          ⟨0, [false, true, false, true, false, false, false, false,
               false, false, false, false, false, false, false, false]⟩
          [⟨2, 7, 1, 0xF0, 0, 0, 0⟩] 1 ⟨0, 0, 0, 0, 0, 0, 0⟩ =
          some [⟨2, 7, 1, 0xF0, 0, 0, 0⟩] := by decide
      exact Option.some.inj (hx.symm.trans hx2)
    · have hy2 : midiportswitch_process
          ⟨0, [false, true, false, true, false, false, false, false,
               false, false, false, false, false, false, false, false]⟩
          [⟨5, 9, 3, 0x90, 60, 100, 0⟩] 1 ⟨0, 0, 0, 0, 0, 0, 0⟩ =
          some [⟨5, 1, 3, 0x90, 60, 100, 0⟩, ⟨5, 3, 3, 0x90, 60, 100, 0⟩] := by decide
      exact Option.some.inj (hy.symm.trans hy2)

/-- C12: `midiportswitch_process` sorts an event by its first data byte only. With 16
flags, an event whose first byte is in 0x80..0xEF, that is whose status nibble is 0x8 to
0xE, is fanned out over the enabled ports, and every other event (first byte below 0x80
or from 0xF0 on) is passed through once as it is; two events with the same status nibble
take the same branch, whatever their channel nibble, size and other data bytes. -/
theorem process_sorts_by_first_byte (handle : MidiPortSwitchHandle)
    (hflags : handle.ouputPorts.length = 16) (e tmpEvent : NativeMidiEvent)
    (hbyte : e.data0 < 256) :
    (isChannelEvent e = true ↔ 0x80 ≤ e.data0 ∧ e.data0 ≤ 0xEF) ∧
    (isChannelEvent e = true ↔ 0x8 ≤ e.data0 / 16 ∧ e.data0 / 16 ≤ 0xE) ∧
    (∀ e2 : NativeMidiEvent, e2.data0 < 256 → e2.data0 / 16 = e.data0 / 16 →
      isChannelEvent e2 = isChannelEvent e) ∧
    (0x80 ≤ e.data0 ∧ e.data0 ≤ 0xEF →
      midiportswitch_process handle [e] 1 tmpEvent =
        some (((List.range 16).filter (fun p => handle.ouputPorts[p]? = some true)).map
          (fun p => { e with port := p }))) ∧
    (e.data0 < 0x80 ∨ 0xF0 ≤ e.data0 →
      midiportswitch_process handle [e] 1 tmpEvent = some [e]) := by
  have hiff := isChannelEvent_iff e hbyte
  have hnib : isChannelEvent e = true ↔ 0x8 ≤ e.data0 / 16 ∧ e.data0 / 16 ≤ 0xE := by
    rw [hiff]; omega
  have hproc := process_eq_flatMap handle hflags [e] tmpEvent
  simp only [List.length_singleton, List.flatMap_singleton] at hproc
  refine ⟨hiff, hnib, ?_, ?_, ?_⟩
  · intro e2 hbyte2 hsame
    have h2 := isChannelEvent_iff e2 hbyte2
    cases hc : isChannelEvent e with
    | true =>
      have := hiff.mp hc
      exact h2.mpr (by omega)
    | false =>
      cases hc2 : isChannelEvent e2 with
      | false => rfl
      | true =>
        have := h2.mp hc2
        have hc3 : isChannelEvent e = true := hiff.mpr (by omega)
        rw [hc] at hc3
        exact absurd hc3 (by decide)
  · intro hrange
    rw [hproc, routeEvent, if_pos (hiff.mpr hrange)]
    rfl
  · intro hother
    have hc : ¬ isChannelEvent e = true := fun hc => by have := hiff.mp hc; omega
    rw [hproc, routeEvent, if_neg hc]

/-- C12, at a Pitch-Bend on channel 5 (first byte 0xE5) and a Song-Position message
(first byte 0xF2) with a channel-like second byte, on a handle with the flag of port 2
set. -/
theorem process_sorts_by_first_byte_witness :
    midiportswitch_process
        ⟨0, [false, false, true, false, false, false, false, false,
             false, false, false, false, false, false, false, false]⟩
        [⟨1, 0, 3, 0xE5, 0, 64, 0⟩] 1 ⟨0, 0, 0, 0, 0, 0, 0⟩ =
      some [⟨1, 2, 3, 0xE5, 0, 64, 0⟩] ∧
    midiportswitch_process
        ⟨0, [false, false, true, false, false, false, false, false,
             false, false, false, false, false, false, false, false]⟩
        [⟨1, 0, 3, 0xF2, 0x90, 64, 0⟩] 1 ⟨0, 0, 0, 0, 0, 0, 0⟩ =
      some [⟨1, 0, 3, 0xF2, 0x90, 64, 0⟩] :=
  ⟨(process_sorts_by_first_byte
      ⟨0, [false, false, true, false, false, false, false, false,
           false, false, false, false, false, false, false, false]⟩ (by decide)
      ⟨1, 0, 3, 0xE5, 0, 64, 0⟩ ⟨0, 0, 0, 0, 0, 0, 0⟩ (by decide)).2.2.2.1 (by decide),
    (process_sorts_by_first_byte
      ⟨0, [false, false, true, false, false, false, false, false,
           false, false, false, false, false, false, false, false]⟩ (by decide)
      ⟨1, 0, 3, 0xF2, 0x90, 64, 0⟩ ⟨0, 0, 0, 0, 0, 0, 0⟩ (by decide)).2.2.2.2 (by decide)⟩

/-! ## Calls through the function table -/

/-- A call that runs to its end and is not a `set_parameter_value` hands the instance
back as it was. -/
theorem hostCall_of_not_isSet (bits : NativeParameterHints) (handle : MidiPortSwitchHandle)
    (c : HostCall) (handle2 : MidiPortSwitchHandle) (r : HostResult)
    (hc : c.isSet = false) (h : hostCall bits handle c = some (handle2, r)) :
    handle2 = handle := by
  cases c with
  | get_parameter_count =>
    simp only [hostCall, Option.some.injEq, Prod.mk.injEq] at h
    exact h.1.symm
  | get_parameter_info index =>
    simp only [hostCall, Option.some.injEq, Prod.mk.injEq] at h
    exact h.1.symm
  | get_parameter_value index =>
    simp only [hostCall, Option.map_eq_some', Prod.mk.injEq] at h
    obtain ⟨_, _, h1, _⟩ := h
    exact h1.symm
  | set_parameter_value index value => simp [HostCall.isSet] at hc
  | process midiEvents midiEventCount tmpEvent =>
    simp only [hostCall, Option.map_eq_some', Prod.mk.injEq] at h
    obtain ⟨_, _, h1, _⟩ := h
    exact h1.symm

/-- A run of calls none of which is a `set_parameter_value` ends on the instance it
started from. -/
theorem hostCalls_of_not_isSet (bits : NativeParameterHints) :
    ∀ (calls : List HostCall) (handle handle2 : MidiPortSwitchHandle),
      (∀ c ∈ calls, c.isSet = false) → hostCalls bits handle calls = some handle2 →
      handle2 = handle := by
  intro calls
  induction calls with
  | nil =>
    intro handle handle2 _ h
    simp only [hostCalls, Option.some.injEq] at h
    exact h.symm
  | cons c calls ih =>
    intro handle handle2 hall h
    simp only [hostCalls] at h
    cases hc : hostCall bits handle c with
    | none => simp [hc] at h
    | some res =>
      obtain ⟨h1, r⟩ := res
      simp only [hc] at h
      have e1 := hostCall_of_not_isSet bits handle c h1 r (hall c (List.mem_cons_self _ _)) hc
      have e2 := ih h1 handle2 (fun c2 hc2 => hall c2 (List.mem_cons_of_mem _ hc2)) h
      rw [e2, e1]

/-- The state of a successful `midiportswitch_instantiate` has 16 flags. -/
theorem instantiate_length (host : Nat) (malloc : Option (Nat → Bool))
    (handle : MidiPortSwitchHandle)
    (h : midiportswitch_instantiate host malloc = some handle) :
    handle.ouputPorts.length = 16 := by
  cases malloc with
  | none => simp [midiportswitch_instantiate] at h
  | some uninit =>
    simp only [midiportswitch_instantiate, Option.some.injEq] at h
    rw [instantiateLoop_full] at h
    subst h
    rfl

/-- A `midiportswitch_set_parameter_value` that runs to its end keeps the number of
flags. -/
theorem set_parameter_value_length (handle : MidiPortSwitchHandle) (index : Nat)
    (value : CFloat) (handle2 : MidiPortSwitchHandle)
    (h : midiportswitch_set_parameter_value handle index value = some handle2) :
    handle2.ouputPorts.length = handle.ouputPorts.length := by
  unfold midiportswitch_set_parameter_value at h
  split at h
  · simp only [Option.some.injEq] at h
    rw [← h]
  · split at h
    · simp only [Option.some.injEq] at h
      rw [← h]
      simp
    · simp at h

/-- With 16 flags, `midiportswitch_set_parameter_value` runs to its end for every index
but 16. -/
theorem set_parameter_value_isSome (handle : MidiPortSwitchHandle) (index : Nat)
    (value : CFloat) (hlen : handle.ouputPorts.length = 16) (hidx : index ≠ 16) :
    ∃ handle2, midiportswitch_set_parameter_value handle index value = some handle2 := by
  by_cases h : index < 16
  · exact ⟨_, set_parameter_value_of_lt handle index value (by omega)
      (by simp only [MAX_MIDI_CHANNELS]; omega)⟩
  · exact ⟨_, set_parameter_value_of_gt handle index value
      (by simp only [MAX_MIDI_CHANNELS]; omega)⟩

/-- A call that runs to its end keeps the number of flags. -/
theorem hostCall_length (bits : NativeParameterHints) (handle : MidiPortSwitchHandle)
    (c : HostCall) (handle2 : MidiPortSwitchHandle) (r : HostResult)
    (h : hostCall bits handle c = some (handle2, r)) :
    handle2.ouputPorts.length = handle.ouputPorts.length := by
  cases hc : c.isSet with
  | false => rw [hostCall_of_not_isSet bits handle c handle2 r hc h]
  | true =>
    cases c with
    | set_parameter_value index value =>
      simp only [hostCall, Option.map_eq_some', Prod.mk.injEq] at h
      obtain ⟨h1, hs, he, _⟩ := h
      subst he
      exact set_parameter_value_length handle index value h1 hs
    | get_parameter_count => simp [HostCall.isSet] at hc
    | get_parameter_info index => simp [HostCall.isSet] at hc
    | get_parameter_value index => simp [HostCall.isSet] at hc
    | process midiEvents midiEventCount tmpEvent => simp [HostCall.isSet] at hc

/-- Every reachable state has 16 flags. -/
theorem reachable_length (bits : NativeParameterHints) (handle : MidiPortSwitchHandle)
    (h : Reachable bits handle) : handle.ouputPorts.length = 16 := by
  induction h with
  | fresh host malloc handle hinst => exact instantiate_length host malloc handle hinst
  | call handle c handle2 r _ hcall ih => rw [hostCall_length bits handle c handle2 r hcall, ih]

/-! ## What an emitted event carries -/

/-- An emitted event is its input event, the `port` field aside. -/
theorem erasePort_of_mem_routeEvent (ouputPorts : List Bool) (e o : NativeMidiEvent)
    (h : o ∈ routeEvent ouputPorts e) : erasePort o = erasePort e := by
  unfold routeEvent at h
  split at h
  · simp only [fanOut, List.mem_map] at h
    obtain ⟨p, _, rfl⟩ := h
    rfl
  · simp only [List.mem_singleton] at h
    rw [h]

/-- One input event gives at most 16 emitted events. -/
theorem length_routeEvent_le (ouputPorts : List Bool) (e : NativeMidiEvent) :
    (routeEvent ouputPorts e).length ≤ 16 := by
  unfold routeEvent
  split
  · rw [fanOut, List.length_map, enabledPorts]
    exact (List.length_filter_le _ _).trans (by simp [MAX_MIDI_CHANNELS])
  · simp

/-- The emitted events of one input event, `port` erased: as many copies of the input
event as there are flags set when it is a channel message, one copy otherwise. -/
theorem map_erasePort_routeEvent (ouputPorts : List Bool)
    (hlen : ouputPorts.length = MAX_MIDI_CHANNELS) (e : NativeMidiEvent) :
    (routeEvent ouputPorts e).map erasePort =
      if isChannelEvent e then List.replicate (ouputPorts.count true) (erasePort e)
      else [erasePort e] := by
  unfold routeEvent
  split
  · rw [fanOut, List.map_map, ← length_enabledPorts ouputPorts hlen, ← List.map_const']
    rfl
  · rfl

/-! ## The claims on states, frames and order -/

/-- For calls that run to their end: one that is not a `set_parameter_value` leaves the
flags as they were, and a second `process` on the same input, with no set in between,
emits the same sequence as the first, whatever the uninitialised `tmpEvent` holds either
time. With 16 flags `process` runs to its end on every input passed with a count inside
it, the count and info getters always do, and the value getter does for every index but
16. -/
theorem calls_other_than_set_keep_flags (bits : NativeParameterHints)
    (handle : MidiPortSwitchHandle) :
    (∀ (c : HostCall) (handle2 : MidiPortSwitchHandle) (r : HostResult),
      c.isSet = false → hostCall bits handle c = some (handle2, r) →
      handle2.ouputPorts = handle.ouputPorts) ∧
    (∀ (midiEvents : List NativeMidiEvent) (midiEventCount : Nat)
      (tmpEvent tmpEvent2 : NativeMidiEvent) (between : List HostCall)
      (handle1 handle2 : MidiPortSwitchHandle) (out : List NativeMidiEvent),
      (∀ c ∈ between, c.isSet = false) →
      hostCall bits handle (.process midiEvents midiEventCount tmpEvent) =
        some (handle1, .written out) →
      hostCalls bits handle1 between = some handle2 →
      hostCall bits handle2 (.process midiEvents midiEventCount tmpEvent2) =
        some (handle2, .written out)) ∧
    (handle.ouputPorts.length = 16 →
      ∀ (midiEvents : List NativeMidiEvent) (midiEventCount : Nat)
        (tmpEvent : NativeMidiEvent), midiEventCount ≤ midiEvents.length →
        ∃ out, hostCall bits handle (.process midiEvents midiEventCount tmpEvent) =
          some (handle, .written out)) ∧
    (∃ r, hostCall bits handle .get_parameter_count = some (handle, r)) ∧
    (∀ index, ∃ r, hostCall bits handle (.get_parameter_info index) = some (handle, r)) ∧
    (handle.ouputPorts.length = 16 → ∀ index, index ≠ 16 →
      ∃ r, hostCall bits handle (.get_parameter_value index) = some (handle, r)) := by
  refine ⟨?_, ?_, ?_, ⟨_, rfl⟩, fun index => ⟨_, rfl⟩, ?_⟩
  · intro c handle2 r hc h
    rw [hostCall_of_not_isSet bits handle c handle2 r hc h]
  · intro midiEvents n tmpEvent tmpEvent2 between handle1 handle2 out hbetween h1 h2
    have e1 := hostCall_of_not_isSet bits handle (.process midiEvents n tmpEvent) handle1 _ rfl h1
    have e2 := hostCalls_of_not_isSet bits between handle1 handle2 hbetween h2
    subst e1
    subst e2
    simp only [hostCall, Option.map_eq_some', Prod.mk.injEq, HostResult.written.injEq,
      true_and, exists_eq_right] at h1 ⊢
    rw [process_tmpEvent_irrelevant handle2 midiEvents n tmpEvent2 tmpEvent]
    exact h1
  · intro hlen midiEvents n tmpEvent hn
    refine ⟨(midiEvents.take n).flatMap (routeEvent handle.ouputPorts), ?_⟩
    simp only [hostCall, process_eq_flatMap_take handle hlen midiEvents n tmpEvent hn,
      Option.map_some']
  · intro hlen index hidx
    by_cases h : index < 16
    · refine ⟨.value (if handle.ouputPorts[index] then CFloat.one else CFloat.zero), ?_⟩
      simp only [hostCall, get_parameter_value_of_lt handle index (by omega)
        (by simp only [MAX_MIDI_CHANNELS]; omega), Option.map_some']
    · refine ⟨.value CFloat.zero, ?_⟩
      simp only [hostCall, get_parameter_value_of_gt handle index
        (by simp only [MAX_MIDI_CHANNELS]; omega), Option.map_some']

/-- C15: with 16 flags, every emitted event carries the time, data bytes and size of the
input event it came from: the emitted sequence with `port` erased is the input sequence
with `port` erased, each channel-voice event repeated as many times as there are flags
set and each other event kept once, and every emitted event agrees with some input
event on time, size and the four data bytes. -/
theorem emitted_carry_input_fields (handle : MidiPortSwitchHandle)
    (hflags : handle.ouputPorts.length = 16) (midiEvents : List NativeMidiEvent)
    (tmpEvent : NativeMidiEvent) (hbytes : ∀ e ∈ midiEvents, e.data0 < 256) :
    ∃ out, midiportswitch_process handle midiEvents midiEvents.length tmpEvent = some out ∧
      out.map erasePort =
        midiEvents.flatMap (fun e =>
          if 0x80 ≤ e.data0 ∧ e.data0 ≤ 0xEF then
            List.replicate (handle.ouputPorts.count true) (erasePort e)
          else [erasePort e]) ∧
      ∀ o ∈ out, ∃ e ∈ midiEvents, o.time = e.time ∧ o.size = e.size ∧
        o.data0 = e.data0 ∧ o.data1 = e.data1 ∧ o.data2 = e.data2 ∧ o.data3 = e.data3 := by
  refine ⟨_, process_eq_flatMap handle hflags midiEvents tmpEvent, ?_, ?_⟩
  · rw [List.map_flatMap]
    clear tmpEvent
    induction midiEvents with
    | nil => rfl
    | cons e rest ih =>
      have hb : e.data0 < 256 := hbytes e (List.mem_cons_self _ _)
      rw [List.flatMap_cons, List.flatMap_cons,
        ih (fun x hx => hbytes x (List.mem_cons_of_mem _ hx)),
        map_erasePort_routeEvent handle.ouputPorts hflags e]
      by_cases hc : isChannelEvent e = true
      · rw [if_pos hc, if_pos ((isChannelEvent_iff e hb).mp hc)]
      · rw [if_neg hc, if_neg (fun h => hc ((isChannelEvent_iff e hb).mpr h))]
  · intro o ho
    obtain ⟨e, he, hoe⟩ := List.mem_flatMap.mp ho
    have h := erasePort_of_mem_routeEvent handle.ouputPorts e o hoe
    simp only [erasePort, NativeMidiEvent.mk.injEq] at h
    exact ⟨e, he, h.1, h.2.2.1, h.2.2.2.1, h.2.2.2.2.1, h.2.2.2.2.2.1, h.2.2.2.2.2.2⟩

/-- C15, at a System Exclusive event followed by a Note-On, with the flags of ports 1
and 3 set: with `port` erased, the first comes out once and the second twice. -/
theorem emitted_carry_input_fields_witness :
    ∃ out,
      midiportswitch_process
        ⟨0, [false, true, false, true, false, false, false, false,
             false, false, false, false, false, false, false, false]⟩
        [⟨2, 7, 1, 0xF0, 0, 0, 0⟩, ⟨5, 9, 3, 0x90, 60, 100, 0⟩] 2 ⟨0, 0, 0, 0, 0, 0, 0⟩ =
        some out ∧
      out.map erasePort =
        [⟨2, 0, 1, 0xF0, 0, 0, 0⟩, ⟨5, 0, 3, 0x90, 60, 100, 0⟩, ⟨5, 0, 3, 0x90, 60, 100, 0⟩] := by
  obtain ⟨out, hout, hmap, _⟩ := emitted_carry_input_fields
    ⟨0, [false, true, false, true, false, false, false, false,
         false, false, false, false, false, false, false, false]⟩ (by decide)
    [⟨2, 7, 1, 0xF0, 0, 0, 0⟩, ⟨5, 9, 3, 0x90, 60, 100, 0⟩] ⟨0, 0, 0, 0, 0, 0, 0⟩ (by decide)
  refine ⟨out, hout, ?_⟩
  rw [hmap]
  decide

/-- C16: index 16 passes the range check `index > MAX_MIDI_CHANNELS` of
`midiportswitch_get_parameter_value` and `midiportswitch_set_parameter_value`, and it is
not inside the 16-element flag array of a freshly created instance: both functions take
the out-of-bounds branch there, which the claim excludes. -/
theorem range_check_admits_index_16 :
    midiportswitch_instantiate 0 (some fun _ => false) = some ⟨0, List.replicate 16 true⟩ ∧
    ¬ (16 > MAX_MIDI_CHANNELS) ∧
    ¬ (16 < (⟨0, List.replicate 16 true⟩ : MidiPortSwitchHandle).ouputPorts.length) ∧
    (⟨0, List.replicate 16 true⟩ : MidiPortSwitchHandle).ouputPorts[16]? = none ∧
    (midiportswitch_get_parameter_value ⟨0, List.replicate 16 true⟩ 16).isNone = true ∧
    (midiportswitch_set_parameter_value ⟨0, List.replicate 16 true⟩ 16 CFloat.one).isNone
      = true := by
  decide

/-- The frame of a `midiportswitch_set_parameter_value(i, v)` that runs to its end:
`midiportswitch_get_parameter_value(j)` returns for every `j` in 0..15 other than `i`
what it returned before. With 16 flags the call runs to its end for every `i` but 16,
and two sets on different indices in 0..15 give the same state in either order. -/
theorem set_parameter_value_frame (handle : MidiPortSwitchHandle) (i : Nat) (v : CFloat) :
    (∀ (handle2 : MidiPortSwitchHandle) (j : Nat),
      midiportswitch_set_parameter_value handle i v = some handle2 → j < 16 → j ≠ i →
      midiportswitch_get_parameter_value handle2 j =
        midiportswitch_get_parameter_value handle j) ∧
    (handle.ouputPorts.length = 16 → i ≠ 16 →
      ∃ handle2, midiportswitch_set_parameter_value handle i v = some handle2) ∧
    (∀ (j : Nat) (w : CFloat), handle.ouputPorts.length = 16 → i < 16 → j < 16 → i ≠ j →
      ∃ viaI viaJ both,
        midiportswitch_set_parameter_value handle i v = some viaI ∧
        midiportswitch_set_parameter_value viaI j w = some both ∧
        midiportswitch_set_parameter_value handle j w = some viaJ ∧
        midiportswitch_set_parameter_value viaJ i v = some both) := by
  refine ⟨?_, fun hlen hi => set_parameter_value_isSome handle i v hlen hi, ?_⟩
  · intro handle2 j hset hj hne
    unfold midiportswitch_set_parameter_value at hset
    split at hset
    · simp only [Option.some.injEq] at hset
      rw [← hset]
    · split at hset
      · simp only [Option.some.injEq] at hset
        rw [← hset]
        simp only [midiportswitch_get_parameter_value, List.getElem?_set_ne (Ne.symm hne)]
      · simp at hset
  · intro j w hlen hi hj hne
    have hmax : ∀ k, k < 16 → k ≤ MAX_MIDI_CHANNELS := fun k hk => by
      simp only [MAX_MIDI_CHANNELS]; omega
    refine ⟨{ handle with ouputPorts := handle.ouputPorts.set i (v.ge CFloat.half) },
      { handle with ouputPorts := handle.ouputPorts.set j (w.ge CFloat.half) },
      { handle with
        ouputPorts :=
          (handle.ouputPorts.set i (v.ge CFloat.half)).set j (w.ge CFloat.half) },
      set_parameter_value_of_lt handle i v (by omega) (hmax i hi), ?_,
      set_parameter_value_of_lt handle j w (by omega) (hmax j hj), ?_⟩
    · exact set_parameter_value_of_lt _ j w (by simp only [List.length_set]; omega) (hmax j hj)
    · rw [set_parameter_value_of_lt _ i v (by simp only [List.length_set]; omega) (hmax i hi)]
      simp only [List.set_comm _ _ _ hne]

/-- C18: with 16 flags, `midiportswitch_process` emits at most 16 times as many events
as it is given, and when the input events are in non-decreasing order of `time` the
emitted events are too. -/
theorem process_keeps_time_order (handle : MidiPortSwitchHandle)
    (hflags : handle.ouputPorts.length = 16) (midiEvents : List NativeMidiEvent)
    (tmpEvent : NativeMidiEvent) :
    ∃ out, midiportswitch_process handle midiEvents midiEvents.length tmpEvent = some out ∧
      out.length ≤ 16 * midiEvents.length ∧
      (midiEvents.Pairwise (fun a b => a.time ≤ b.time) →
        out.Pairwise (fun a b => a.time ≤ b.time)) := by
  have htime : ∀ e o, o ∈ routeEvent handle.ouputPorts e → o.time = e.time := by
    intro e o ho
    have h := erasePort_of_mem_routeEvent handle.ouputPorts e o ho
    simp only [erasePort, NativeMidiEvent.mk.injEq] at h
    exact h.1
  refine ⟨_, process_eq_flatMap handle hflags midiEvents tmpEvent, ?_, ?_⟩
  · clear tmpEvent
    induction midiEvents with
    | nil => simp
    | cons e rest ih =>
      rw [List.flatMap_cons, List.length_append, List.length_cons]
      have := length_routeEvent_le handle.ouputPorts e
      omega
  · intro hsorted
    rw [List.pairwise_flatMap]
    refine ⟨?_, ?_⟩
    · intro e _
      apply List.pairwise_of_forall_mem_list
      intro a ha b hb
      rw [htime e a ha, htime e b hb]
    · refine hsorted.imp ?_
      intro a b hab x hx y hy
      rw [htime a x hx, htime b y hy]
      exact hab

/-- C18, at a System Exclusive event at time 2 followed by a Note-On at time 5, with the
flags of ports 1 and 3 set. -/
theorem process_keeps_time_order_witness :
    ∃ out,
      midiportswitch_process
        ⟨0, [false, true, false, true, false, false, false, false,
             false, false, false, false, false, false, false, false]⟩
        [⟨2, 7, 1, 0xF0, 0, 0, 0⟩, ⟨5, 9, 3, 0x90, 60, 100, 0⟩] 2 ⟨0, 0, 0, 0, 0, 0, 0⟩ =
        some out ∧
      out.length ≤ 32 ∧ out.Pairwise (fun a b => a.time ≤ b.time) := by
  obtain ⟨out, hout, hlen, hsorted⟩ := process_keeps_time_order
    ⟨0, [false, true, false, true, false, false, false, false,
         false, false, false, false, false, false, false, false]⟩ (by decide)
    [⟨2, 7, 1, 0xF0, 0, 0, 0⟩, ⟨5, 9, 3, 0x90, 60, 100, 0⟩] ⟨0, 0, 0, 0, 0, 0, 0⟩
  exact ⟨out, hout, hlen, hsorted (by decide)⟩

end MidiPortSwitch
